import Mathlib

/-!
Verification of the arithmetic_type_tools header (arithmetic_type_tools.hpp):
compile-time selection of fixed-width arithmetic types by byte size and
category, largest-member aggregation over type lists, double-width
derivation, the fit_all unifying-type derivation and the value-level
min/max/clamp helpers.

The embedding models a C++ arithmetic type as its (category, byte size)
pair: within the type set handled by the header each (category, size)
pair names exactly one concrete type, so this pair is a faithful key.
Platform-conditional table entries (the preprocessor-guarded 16- and
32-byte integers and the 16-byte long double) are modelled by a
Platform record of capability flags.  The sentinel type void used by the
primary templates is modelled as Option.none.
-/

namespace arithmetic_type_tools

/-- Category of a C++ arithmetic type: signed integer, unsigned integer or
floating point. -/
inductive Category where
  | signedInt : Category
  | unsignedInt : Category
  | floatingPoint : Category
deriving DecidableEq

/-- A C++ arithmetic type, identified by its category and its byte size
(sizeof). -/
structure ArithTy where
  cat : Category
  size : Nat
deriving DecidableEq

/-- Platform capability flags for the preprocessor-conditional table rows:
SIZEOF_INT128, SIZEOF_INT256, and whether long double is 16 bytes. -/
structure Platform where
  int128 : Bool
  int256 : Bool
  longDouble16 : Bool
deriving DecidableEq

/-- Model of std::is_signed_v: true for signed integer types and for
floating point types (T(-1) < T(0)). -/
def is_signed (t : ArithTy) : Bool :=
  match t.cat with
  | .signedInt => true
  | .unsignedInt => false
  | .floatingPoint => true

/-- Model of std::is_unsigned_v: true only for unsigned integer types. -/
def is_unsigned (t : ArithTy) : Bool :=
  match t.cat with
  | .signedInt => false
  | .unsignedInt => true
  | .floatingPoint => false

/-- Model of std::is_floating_point_v. -/
def is_floating_point (t : ArithTy) : Bool :=
  match t.cat with
  | .signedInt => false
  | .unsignedInt => false
  | .floatingPoint => true

/-- The signed_by_size table: specializations at 1, 2, 4, 8 bytes
(int8_t..int64_t), at 16 and 32 bytes only when the platform provides
them, and the primary template (type void, modelled none) elsewhere. -/
def signed_by_size (p : Platform) (s : Nat) : Option ArithTy :=
  if s = 1 ∨ s = 2 ∨ s = 4 ∨ s = 8 then some ⟨.signedInt, s⟩
  else if s = 16 ∧ p.int128 = true then some ⟨.signedInt, 16⟩
  else if s = 32 ∧ p.int256 = true then some ⟨.signedInt, 32⟩
  else none

/-- The unsigned_by_size table, parallel to signed_by_size. -/
def unsigned_by_size (p : Platform) (s : Nat) : Option ArithTy :=
  if s = 1 ∨ s = 2 ∨ s = 4 ∨ s = 8 then some ⟨.unsignedInt, s⟩
  else if s = 16 ∧ p.int128 = true then some ⟨.unsignedInt, 16⟩
  else if s = 32 ∧ p.int256 = true then some ⟨.unsignedInt, 32⟩
  else none

/-- The float_by_size table: float at 4 bytes and double at 8 bytes (the
header guards these on SIZEOF_FLOAT == 4 and SIZEOF_DOUBLE == 8, which hold
on every platform the header targets), long double at 16 bytes only when
its actual size is 16, and the primary template (void) elsewhere. -/
def float_by_size (p : Platform) (s : Nat) : Option ArithTy :=
  if s = 4 ∨ s = 8 then some ⟨.floatingPoint, s⟩
  else if s = 16 ∧ p.longDouble16 = true then some ⟨.floatingPoint, 16⟩
  else none

/-- Value level of the variadic max at T = size_t, as instantiated by the
largest_* aggregates: temp starts at numeric_limits lowest (0 for size_t)
and each argument replaces temp when strictly greater.  An empty pack is
ill-formed (common_type_t of no types has no member type, so overload
resolution finds no viable max), modelled as none. -/
def max (xs : List Nat) : Option Nat :=
  match xs with
  | [] => none
  | _ :: _ => some (xs.foldl (fun temp v => if temp < v then v else temp) 0)

/-- largest_signed: max over (std::is_signed_v ? sizeof : 0) of each member.
Note std::is_signed_v counts floating point types as signed. -/
def largest_signed (ts : List ArithTy) : Option Nat :=
  max (ts.map fun t => if is_signed t then t.size else 0)

/-- largest_unsigned: max over (std::is_unsigned_v ? sizeof : 0). -/
def largest_unsigned (ts : List ArithTy) : Option Nat :=
  max (ts.map fun t => if is_unsigned t then t.size else 0)

/-- largest_float: max over (std::is_floating_point_v ? sizeof : 0). -/
def largest_float (ts : List ArithTy) : Option Nat :=
  max (ts.map fun t => if is_floating_point t then t.size else 0)

/-- Integer promotion: integer types smaller than the 4-byte int promote to
int (4-byte int represents all values of the 1- and 2-byte types); floating
point types and integer types of size at least 4 are unchanged. -/
def promote (t : ArithTy) : ArithTy :=
  if t.cat = .floatingPoint then t
  else if t.size < 4 then ⟨.signedInt, 4⟩
  else t

/-- Model of std::common_type_t of two arithmetic types: the usual
arithmetic conversions on an LP64-style platform, where conversion rank
follows byte size within each category.  Identical types stay put; a
floating point operand dominates integers and the larger floating size
wins; otherwise both sides are integer-promoted, same-category takes the
larger, and for mixed signedness the unsigned type wins at equal or larger
size while a strictly larger signed type (which represents the whole
unsigned range) wins otherwise. -/
def common_type_pair (a b : ArithTy) : ArithTy :=
  if a = b then a
  else if a.cat = .floatingPoint ∧ b.cat = .floatingPoint then
    if b.size ≤ a.size then a else b
  else if a.cat = .floatingPoint then a
  else if b.cat = .floatingPoint then b
  else
    let x := promote a
    let y := promote b
    if x = y then x
    else if x.cat = y.cat then (if y.size ≤ x.size then x else y)
    else
      let s := if x.cat = .signedInt then x else y
      let u := if x.cat = .unsignedInt then x else y
      if s.size ≤ u.size then u else s

/-- Model of variadic std::common_type_t: common_type of T1, T2, Ts... is
common_type of (the pairwise common type of T1 and T2) and Ts..., which
unrolls to a left fold of the pairwise common type; a single type decays
to itself; the empty pack has no member type (none). -/
def common_type (ts : List ArithTy) : Option ArithTy :=
  match ts with
  | [] => none
  | t :: rest => some (rest.foldl common_type_pair t)

/-- The inline default template argument T shared by the variadic min and
max (and, at three types, the C of clamp): when the pack mixes a signed
(per std::is_signed_v) and an unsigned participant, look up the signed type
of size sizeof(common_type) times 1 when sizeof(common_type) exceeds the
largest unsigned participant size, times 2 otherwise; with no such mix, T
is common_type itself.  A void lookup result leaves the function body
ill-formed, modelled none. -/
def minmax_type (p : Platform) (ts : List ArithTy) : Option ArithTy :=
  (common_type ts).bind fun ct =>
    if ts.any is_signed && ts.any is_unsigned then
      signed_by_size p
        (ct.size *
          (if (ts.map fun t => if is_unsigned t then t.size else 0).foldl
                (fun temp v => if temp < v then v else temp) 0 < ct.size
           then 1 else 2))
    else some ct

/-- fit_all: from the three largest-member aggregates ls, lu, lf, pick the
float type of size lf when lf > 0, else (signed participant present) the
signed type of size ls when ls > lu and of size 2 * lu otherwise, else the
unsigned type of size lu when lu > 0, else void. -/
def fit_all (p : Platform) (ts : List ArithTy) : Option ArithTy :=
  (largest_signed ts).bind fun ls =>
    (largest_unsigned ts).bind fun lu =>
      (largest_float ts).bind fun lf =>
        if 0 < lf then float_by_size p lf
        else if 0 < ls then
          (if lu < ls then signed_by_size p ls else signed_by_size p (2 * lu))
        else if 0 < lu then unsigned_by_size p lu
        else none

/-- A possibly reference- or const-qualified arithmetic type, as supplied
to next_up before std::decay_t strips the qualifiers. -/
structure QualTy where
  isConst : Bool
  isRef : Bool
  base : ArithTy
deriving DecidableEq

/-- Model of std::decay_t on qualified arithmetic types: drop reference and
const qualification, keeping the underlying value type. -/
def decay (t : QualTy) : ArithTy := t.base

/-- next_up: on the decayed type BT, look up the type of size
2 * sizeof(BT) in the float table when BT is floating point, in the signed
table when BT is signed, and in the unsigned table otherwise. -/
def next_up (p : Platform) (t : QualTy) : Option ArithTy :=
  let bt := decay t
  if is_floating_point bt then float_by_size p (2 * bt.size)
  else if is_signed bt then signed_by_size p (2 * bt.size)
  else unsigned_by_size p (2 * bt.size)

/-- static_cast between integer arithmetic types at the value level:
reduce modulo 2 ^ (8 * size) and, for a signed destination, reinterpret
residues at or above half the modulus as negative. -/
def int_cast (t : ArithTy) (v : Int) : Int :=
  let m : Int := 2 ^ (8 * t.size)
  let r := v % m
  if t.cat = .signedInt ∧ m / 2 ≤ r then r - m else r

/-- The conditional expression in the body of clamp, after all three
operands have been cast into the unifying type C: low when not
(low < val), else val when val < high, else high. -/
def clamp_fold {α : Type} [LinearOrder α] (low val high : α) : α :=
  if low < val then (if val < high then val else high) else low

/-- A runtime value together with its arithmetic type. -/
structure TypedVal where
  ty : ArithTy
  val : Int
deriving DecidableEq

/-- Value-level clamp: derive the unifying type C by the same inline
formula as min and max over the three operand types, cast all three
operands into C, and fold.  The value model covers integer-category
operands (none on floating point operands, whose value semantics are
outside the embedding); a void C leaves the body ill-formed (none). -/
def clamp (p : Platform) (low val high : TypedVal) : Option TypedVal :=
  if is_floating_point low.ty ∨ is_floating_point val.ty ∨ is_floating_point high.ty then
    none
  else
    (minmax_type p [low.ty, val.ty, high.ty]).bind fun c =>
      some ⟨c, clamp_fold (int_cast c low.val) (int_cast c val.val) (int_cast c high.val)⟩

/-- The byte size of the largest member of the given category in a type
list, written directly as a fold over the list (specification-side
formulation of the largest-member aggregates). -/
def specLargest (c : Category) (ts : List ArithTy) : Nat :=
  ts.foldr (fun t m => Nat.max (if t.cat = c then t.size else 0) m) 0

/-- The widths at which the signed_by_size table has a specialization. -/
def signed_widths (p : Platform) (s : Nat) : Prop :=
  s = 1 ∨ s = 2 ∨ s = 4 ∨ s = 8 ∨ (s = 16 ∧ p.int128 = true) ∨ (s = 32 ∧ p.int256 = true)

/-- The widths at which the unsigned_by_size table has a specialization. -/
def unsigned_widths (p : Platform) (s : Nat) : Prop :=
  s = 1 ∨ s = 2 ∨ s = 4 ∨ s = 8 ∨ (s = 16 ∧ p.int128 = true) ∨ (s = 32 ∧ p.int256 = true)

/-- The widths at which the float_by_size table has a specialization. -/
def float_widths (p : Platform) (s : Nat) : Prop :=
  s = 4 ∨ s = 8 ∨ (s = 16 ∧ p.longDouble16 = true)

instance (p : Platform) (s : Nat) : Decidable (signed_widths p s) :=
  show Decidable (s = 1 ∨ s = 2 ∨ s = 4 ∨ s = 8 ∨ (s = 16 ∧ p.int128 = true) ∨
    (s = 32 ∧ p.int256 = true)) from inferInstance

instance (p : Platform) (s : Nat) : Decidable (unsigned_widths p s) :=
  show Decidable (s = 1 ∨ s = 2 ∨ s = 4 ∨ s = 8 ∨ (s = 16 ∧ p.int128 = true) ∨
    (s = 32 ∧ p.int256 = true)) from inferInstance

instance (p : Platform) (s : Nat) : Decidable (float_widths p s) :=
  show Decidable (s = 4 ∨ s = 8 ∨ (s = 16 ∧ p.longDouble16 = true)) from inferInstance

/-- The fixed-width types named by the size tables. -/
def int8_t : ArithTy := ⟨.signedInt, 1⟩

def int16_t : ArithTy := ⟨.signedInt, 2⟩

def int32_t : ArithTy := ⟨.signedInt, 4⟩

def int64_t : ArithTy := ⟨.signedInt, 8⟩

def uint8_t : ArithTy := ⟨.unsignedInt, 1⟩

def uint16_t : ArithTy := ⟨.unsignedInt, 2⟩

def uint32_t : ArithTy := ⟨.unsignedInt, 4⟩

def uint64_t : ArithTy := ⟨.unsignedInt, 8⟩

/-- The 4-byte float type. -/
def float32 : ArithTy := ⟨.floatingPoint, 4⟩

/-- The 8-byte double type. -/
def float64 : ArithTy := ⟨.floatingPoint, 8⟩

/-! Helper lemmas about the fold underlying the variadic max and about the
size tables. -/

theorem step_eq_max : (fun temp v : Nat => if temp < v then v else temp) = Nat.max := by
  funext a b
  simp only [Nat.max_def]
  split_ifs <;> omega

theorem nat_max_assoc (a b c : Nat) :
    Nat.max (Nat.max a b) c = Nat.max a (Nat.max b c) := by
  simp only [Nat.max_def]
  split_ifs <;> omega

theorem nat_max_shuffle (a b c d : Nat) :
    Nat.max (Nat.max a b) (Nat.max c d) = Nat.max (Nat.max a c) (Nat.max b d) := by
  simp only [Nat.max_def]
  split_ifs <;> omega

theorem foldl_max_acc (f : ArithTy → Nat) (l : List ArithTy) (a : Nat) :
    (l.map f).foldl Nat.max a = Nat.max a (l.foldr (fun t m => Nat.max (f t) m) 0) := by
  induction l generalizing a with
  | nil => simp
  | cons x xs ih =>
      simp only [List.map_cons, List.foldl_cons, List.foldr_cons]
      rw [ih, nat_max_assoc]

theorem max_map_eq (f : ArithTy → Nat) (ts : List ArithTy) (h : ts ≠ []) :
    max (ts.map f) = some (ts.foldr (fun t m => Nat.max (f t) m) 0) := by
  cases ts with
  | nil => exact absurd rfl h
  | cons x xs =>
      show max ((x :: xs).map f) = _
      unfold max
      rw [step_eq_max]
      simp only [List.map_cons]
      rw [show (f x :: xs.map f) = (x :: xs).map f by simp, foldl_max_acc]
      simp

theorem largest_signed_eq (ts : List ArithTy) (h : ts ≠ []) :
    largest_signed ts =
      some (ts.foldr (fun t m => Nat.max (if is_signed t then t.size else 0) m) 0) :=
  max_map_eq _ ts h

theorem largest_unsigned_eq (ts : List ArithTy) (h : ts ≠ []) :
    largest_unsigned ts = some (specLargest .unsignedInt ts) := by
  rw [largest_unsigned, max_map_eq _ ts h, specLargest]
  have he : (fun (t : ArithTy) (m : Nat) => Nat.max (if is_unsigned t then t.size else 0) m)
      = fun (t : ArithTy) (m : Nat) =>
          Nat.max (if t.cat = Category.unsignedInt then t.size else 0) m := by
    funext t m
    rcases t with ⟨c, s⟩
    cases c <;> simp [is_unsigned]
  rw [he]

theorem largest_float_eq (ts : List ArithTy) (h : ts ≠ []) :
    largest_float ts = some (specLargest .floatingPoint ts) := by
  rw [largest_float, max_map_eq _ ts h, specLargest]
  have he : (fun (t : ArithTy) (m : Nat) => Nat.max (if is_floating_point t then t.size else 0) m)
      = fun (t : ArithTy) (m : Nat) =>
          Nat.max (if t.cat = Category.floatingPoint then t.size else 0) m := by
    funext t m
    rcases t with ⟨c, s⟩
    cases c <;> simp [is_floating_point]
  rw [he]

theorem foldr_max_zero (f : ArithTy → Nat) (ts : List ArithTy) (h : ∀ t ∈ ts, f t = 0) :
    ts.foldr (fun t m => Nat.max (f t) m) 0 = 0 := by
  induction ts with
  | nil => rfl
  | cons x xs ih =>
      simp only [List.foldr_cons]
      rw [h x (by simp), ih (fun t ht => h t (by simp [ht]))]
      decide

theorem le_foldr_max (f : ArithTy → Nat) (ts : List ArithTy) (t : ArithTy) (ht : t ∈ ts) :
    f t ≤ ts.foldr (fun t m => Nat.max (f t) m) 0 := by
  induction ts with
  | nil => cases ht
  | cons x xs ih =>
      rcases List.mem_cons.mp ht with rfl | hmem
      · exact Nat.le_max_left _ _
      · exact Nat.le_trans (ih hmem) (Nat.le_max_right _ _)

theorem foldr_max_split (f g : ArithTy → Nat) (ts : List ArithTy) :
    ts.foldr (fun t m => Nat.max (Nat.max (f t) (g t)) m) 0 =
      Nat.max (ts.foldr (fun t m => Nat.max (f t) m) 0)
        (ts.foldr (fun t m => Nat.max (g t) m) 0) := by
  induction ts with
  | nil => rfl
  | cons x xs ih =>
      simp only [List.foldr_cons]
      rw [ih, nat_max_shuffle]

theorem foldr_signed_indicator (ts : List ArithTy)
    (hnf : ∀ t ∈ ts, t.cat ≠ Category.floatingPoint) :
    ts.foldr (fun t m => Nat.max (if is_signed t then t.size else 0) m) 0 =
      ts.foldr (fun t m => Nat.max (if t.cat = Category.signedInt then t.size else 0) m) 0 := by
  induction ts with
  | nil => rfl
  | cons x xs ih =>
      simp only [List.foldr_cons]
      rw [ih (fun t ht => hnf t (by simp [ht]))]
      congr 1
      have hx := hnf x (by simp)
      rcases x with ⟨c, s⟩
      cases c <;> simp_all [is_signed]

theorem largest_signed_no_float_eq (ts : List ArithTy) (h : ts ≠ [])
    (hnf : ∀ t ∈ ts, t.cat ≠ Category.floatingPoint) :
    largest_signed ts = some (specLargest .signedInt ts) := by
  rw [largest_signed_eq ts h, specLargest, foldr_signed_indicator ts hnf]

theorem signed_by_size_some {p : Platform} {s : Nat} {r : ArithTy}
    (h : signed_by_size p s = some r) : r = ⟨.signedInt, s⟩ := by
  unfold signed_by_size at h
  split_ifs at h <;> simp_all

theorem unsigned_by_size_some {p : Platform} {s : Nat} {r : ArithTy}
    (h : unsigned_by_size p s = some r) : r = ⟨.unsignedInt, s⟩ := by
  unfold unsigned_by_size at h
  split_ifs at h <;> simp_all

theorem float_by_size_some {p : Platform} {s : Nat} {r : ArithTy}
    (h : float_by_size p s = some r) : r = ⟨.floatingPoint, s⟩ := by
  unfold float_by_size at h
  split_ifs at h <;> simp_all

theorem signed_by_size_none {p : Platform} {s : Nat} (h : ¬ signed_widths p s) :
    signed_by_size p s = none := by
  unfold signed_widths at h
  unfold signed_by_size
  split_ifs <;> tauto

theorem unsigned_by_size_none {p : Platform} {s : Nat} (h : ¬ unsigned_widths p s) :
    unsigned_by_size p s = none := by
  unfold unsigned_widths at h
  unfold unsigned_by_size
  split_ifs <;> tauto

theorem float_by_size_none {p : Platform} {s : Nat} (h : ¬ float_widths p s) :
    float_by_size p s = none := by
  unfold float_widths at h
  unfold float_by_size
  split_ifs <;> tauto

/-! Claim theorems. -/

/-- Claim C1: evaluation at the failing input.  Over the operand types
int8_t and uint8_t (a mixed signed/unsigned list), the inline type
derivation of the variadic min and max yields the 4-byte signed type
(std::common_type_t of int8_t and uint8_t is the promoted 4-byte int,
whose size exceeds the largest unsigned participant size 1, so the
multiplier is 1), while fit_all yields the 2-byte signed type (ls = lu = 1,
so signed_by_size of 2 * 1).  The return type of min and max therefore does
not equal fit_all_t of the operand types, contradicting both the claim and
the doc comment of min and max in the source, which promises a return value
of type fit_all_t. -/
theorem minmax_return_type_vs_fit_all_at_int8_uint8 (p : Platform) :
    minmax_type p [int8_t, uint8_t] = some ⟨.signedInt, 4⟩ ∧
    fit_all p [int8_t, uint8_t] = some ⟨.signedInt, 2⟩ ∧
    minmax_type p [int8_t, uint8_t] ≠ fit_all p [int8_t, uint8_t] := by
  rcases p with ⟨a, b, c⟩
  cases a <;> cases b <;> cases c <;> exact ⟨by decide, by decide, by decide⟩

/-- Claim C2: clamp with low = 0 of type uint32_t, val = -5 of type
int32_t, high = 10 of type uint32_t derives the 8-byte signed unifying
type, in which the cast of -5 compares strictly less than the cast of 0,
so clamp returns the value 0 of low rather than a wrapped huge unsigned
value. -/
theorem clamp_unsigned_low_signed_val_returns_low (p : Platform) :
    clamp p ⟨uint32_t, 0⟩ ⟨int32_t, -5⟩ ⟨uint32_t, 10⟩ = some ⟨⟨.signedInt, 8⟩, 0⟩ ∧
    minmax_type p [uint32_t, int32_t, uint32_t] = some ⟨.signedInt, 8⟩ ∧
    int_cast ⟨.signedInt, 8⟩ (-5) < int_cast ⟨.signedInt, 8⟩ 0 := by
  rcases p with ⟨a, b, c⟩
  cases a <;> cases b <;> cases c <;> exact ⟨by decide, by decide, by decide⟩

/-- Claim C9: on a platform without 16-byte integer types, fit_all over
int64_t and uint64_t yields the no-type marker (void), even though both
inputs are individually supported 8-byte lookups: the 2 * lu widening rule
requests a 16-byte signed type and does not saturate at the widest
available signed type. -/
theorem fit_all_int64_uint64_no_int128 (p : Platform) (h : p.int128 = false) :
    fit_all p [int64_t, uint64_t] = none ∧
    signed_by_size p 8 = some int64_t ∧
    unsigned_by_size p 8 = some uint64_t ∧
    signed_by_size p 16 = none := by
  rcases p with ⟨a, b, c⟩
  revert h
  cases a <;> cases b <;> cases c <;> decide

/-- Witness for claim C9 at the concrete platform with no extended
integer types. -/
theorem fit_all_int64_uint64_no_int128_witness :
    (⟨false, false, false⟩ : Platform).int128 = false ∧
    (fit_all ⟨false, false, false⟩ [int64_t, uint64_t] = none ∧
      signed_by_size ⟨false, false, false⟩ 8 = some int64_t ∧
      unsigned_by_size ⟨false, false, false⟩ 8 = some uint64_t ∧
      signed_by_size ⟨false, false, false⟩ 16 = none) :=
  ⟨by decide, fit_all_int64_uint64_no_int128 ⟨false, false, false⟩ (by decide)⟩

/-- Claim C10: fit_all applied to each one-element list drawn from the ten
size-table types is the identity on that type, on every platform. -/
theorem fit_all_singleton_identity (p : Platform) :
    fit_all p [int8_t] = some int8_t ∧
    fit_all p [int16_t] = some int16_t ∧
    fit_all p [int32_t] = some int32_t ∧
    fit_all p [int64_t] = some int64_t ∧
    fit_all p [uint8_t] = some uint8_t ∧
    fit_all p [uint16_t] = some uint16_t ∧
    fit_all p [uint32_t] = some uint32_t ∧
    fit_all p [uint64_t] = some uint64_t ∧
    fit_all p [float32] = some float32 ∧
    fit_all p [float64] = some float64 := by
  rcases p with ⟨a, b, c⟩
  cases a <;> cases b <;> cases c <;> decide

/-- Claim C5, counterexample: largest_signed uses std::is_signed_v, which
is true for floating point types, so over the list of uint32_t and the
4-byte float it returns 4, not 0 as the claim states for a list with no
signed integer member; and over the empty list the variadic max is
ill-formed (no common_type of an empty pack), so the result is not 0
either. -/
theorem largest_signed_counts_float_and_rejects_empty :
    largest_signed [uint32_t, float32] = some 4 ∧
    largest_signed [uint32_t, float32] ≠ some 0 ∧
    largest_signed ([] : List ArithTy) ≠ some 0 := by
  exact ⟨by decide, by decide, by decide⟩

/-- Claim C3: over a non-empty all-integer list with a signed member
(all sizes positive, as sizeof always is), fit_all yields the signed type
of size ls when ls exceeds lu, and the signed type of size 2 * lu
otherwise, where ls and lu are the largest signed and unsigned member
sizes; in particular it maps int32_t with uint32_t to the 8-byte signed
type and int8_t with uint8_t to the 2-byte signed type. -/
theorem fit_all_signed_unsigned_mix (p : Platform) (ts : List ArithTy)
    (hne : ts ≠ [])
    (hnf : ∀ t ∈ ts, t.cat ≠ Category.floatingPoint)
    (hsig : ∃ t ∈ ts, t.cat = Category.signedInt)
    (hpos : ∀ t ∈ ts, 0 < t.size) :
    (specLargest .unsignedInt ts < specLargest .signedInt ts →
      ∀ r, fit_all p ts = some r → r = ⟨.signedInt, specLargest .signedInt ts⟩) ∧
    (specLargest .signedInt ts ≤ specLargest .unsignedInt ts →
      ∀ r, fit_all p ts = some r → r = ⟨.signedInt, 2 * specLargest .unsignedInt ts⟩) ∧
    fit_all p [int32_t, uint32_t] = some ⟨.signedInt, 8⟩ ∧
    fit_all p [int8_t, uint8_t] = some ⟨.signedInt, 2⟩ := by
  have hS := largest_signed_no_float_eq ts hne hnf
  have hU := largest_unsigned_eq ts hne
  have hF := largest_float_eq ts hne
  have hF0 : specLargest .floatingPoint ts = 0 :=
    foldr_max_zero (fun t => if t.cat = Category.floatingPoint then t.size else 0) ts
      (fun t ht => by simp [hnf t ht])
  have hSpos : 0 < specLargest .signedInt ts := by
    obtain ⟨t, ht, hc⟩ := hsig
    have h1 := le_foldr_max (fun t => if t.cat = Category.signedInt then t.size else 0) ts t ht
    have h2 := hpos t ht
    simp only [hc, if_pos] at h1
    have h3 : t.size ≤ specLargest .signedInt ts := h1
    omega
  have hfit : fit_all p ts =
      (if specLargest .unsignedInt ts < specLargest .signedInt ts
       then signed_by_size p (specLargest .signedInt ts)
       else signed_by_size p (2 * specLargest .unsignedInt ts)) := by
    unfold fit_all
    rw [hS, hU, hF, hF0]
    simp only [Option.some_bind]
    rw [if_neg (by omega), if_pos hSpos]
  refine ⟨?_, ?_, ?_, ?_⟩
  · intro hlt r hr
    rw [hfit, if_pos hlt] at hr
    exact signed_by_size_some hr
  · intro hle r hr
    rw [hfit, if_neg (by omega)] at hr
    exact signed_by_size_some hr
  · rcases p with ⟨a, b, c⟩
    cases a <;> cases b <;> cases c <;> decide
  · rcases p with ⟨a, b, c⟩
    cases a <;> cases b <;> cases c <;> decide

/-- Witness for claim C3 at the list of int32_t and uint32_t, where the
largest signed and unsigned sizes tie at 4, so the 2 * lu branch gives the
8-byte signed type. -/
theorem fit_all_signed_unsigned_mix_witness :
    fit_all ⟨false, false, false⟩ [int32_t, uint32_t] = some ⟨.signedInt, 8⟩ ∧
    (⟨.signedInt, 8⟩ : ArithTy) = ⟨.signedInt, 2 * specLargest .unsignedInt [int32_t, uint32_t]⟩ :=
  ⟨by decide,
   (fit_all_signed_unsigned_mix ⟨false, false, false⟩ [int32_t, uint32_t]
      (by decide) (by decide) (by decide) (by decide)).2.1 (by decide)
      ⟨.signedInt, 8⟩ (by decide)⟩

/-- Claim C4: whenever the list contains a floating point member (all
sizes positive), fit_all yields the floating point type of the largest
floating point member size, regardless of the integer members; in
particular float32 with int64_t gives the 4-byte float type. -/
theorem fit_all_float_dominance (p : Platform) (ts : List ArithTy)
    (hpos : ∀ t ∈ ts, 0 < t.size)
    (hf : ∃ t ∈ ts, t.cat = Category.floatingPoint) :
    (∀ r, fit_all p ts = some r →
      r = ⟨.floatingPoint, specLargest .floatingPoint ts⟩) ∧
    fit_all p [float32, int64_t] = some float32 := by
  have hne : ts ≠ [] := by
    rintro rfl
    obtain ⟨t, ht, -⟩ := hf
    cases ht
  have hS := largest_signed_eq ts hne
  have hU := largest_unsigned_eq ts hne
  have hF := largest_float_eq ts hne
  have hFpos : 0 < specLargest .floatingPoint ts := by
    obtain ⟨t, ht, hc⟩ := hf
    have h1 := le_foldr_max (fun t => if t.cat = Category.floatingPoint then t.size else 0) ts t ht
    have h2 := hpos t ht
    simp only [hc, if_pos] at h1
    have h3 : t.size ≤ specLargest .floatingPoint ts := h1
    omega
  refine ⟨?_, ?_⟩
  · intro r hr
    unfold fit_all at hr
    rw [hS, hU, hF] at hr
    simp only [Option.some_bind] at hr
    rw [if_pos hFpos] at hr
    exact float_by_size_some hr
  · rcases p with ⟨a, b, c⟩
    cases a <;> cases b <;> cases c <;> decide

/-- Witness for claim C4 at the list of float32 and int64_t. -/
theorem fit_all_float_dominance_witness :
    fit_all ⟨false, false, false⟩ [float32, int64_t] = some float32 ∧
    float32 = ⟨.floatingPoint, specLargest .floatingPoint [float32, int64_t]⟩ :=
  ⟨by decide,
   (fit_all_float_dominance ⟨false, false, false⟩ [float32, int64_t]
      (by decide) (by decide)).1 float32 (by decide)⟩

theorem max_singleton (x : Nat) : max [x] = some x := by
  show some (if 0 < x then x else 0) = some x
  congr 1
  split_ifs <;> omega

/-- Claim C5 as amended: over a non-empty list, largest_signed returns the
maximum size over members counted signed by std::is_signed_v — signed
integer AND floating point members, i.e. the maximum of the two per-category
maxima — while largest_unsigned and largest_float return the maximum size
of the unsigned-integer resp. floating-point members, non-matching members
contributing 0; a non-empty list with no matching member gives 0, and a
singleton list gives the size of its member exactly when it matches, 0
otherwise; the empty list is ill-formed, not 0. -/
theorem largest_aggregates_amended (ts : List ArithTy) (hne : ts ≠ []) :
    largest_signed ts =
      some (Nat.max (specLargest .signedInt ts) (specLargest .floatingPoint ts)) ∧
    largest_unsigned ts = some (specLargest .unsignedInt ts) ∧
    largest_float ts = some (specLargest .floatingPoint ts) ∧
    ((∀ t ∈ ts, ¬ is_signed t) → largest_signed ts = some 0) ∧
    ((∀ t ∈ ts, ¬ is_unsigned t) → largest_unsigned ts = some 0) ∧
    ((∀ t ∈ ts, ¬ is_floating_point t) → largest_float ts = some 0) ∧
    (∀ t, ts = [t] →
      largest_signed ts = some (if is_signed t then t.size else 0) ∧
      largest_unsigned ts = some (if is_unsigned t then t.size else 0) ∧
      largest_float ts = some (if is_floating_point t then t.size else 0)) := by
  refine ⟨?_, largest_unsigned_eq ts hne, largest_float_eq ts hne, ?_, ?_, ?_, ?_⟩
  · rw [largest_signed_eq ts hne]
    have he : (fun (t : ArithTy) (m : Nat) => Nat.max (if is_signed t then t.size else 0) m)
        = fun (t : ArithTy) (m : Nat) =>
            Nat.max (Nat.max (if t.cat = Category.signedInt then t.size else 0)
              (if t.cat = Category.floatingPoint then t.size else 0)) m := by
      funext t m
      rcases t with ⟨c, s⟩
      cases c <;> simp [is_signed, Nat.max_def]
    rw [he, foldr_max_split (fun t => if t.cat = Category.signedInt then t.size else 0)
      (fun t => if t.cat = Category.floatingPoint then t.size else 0) ts]
    rfl
  · intro h
    rw [largest_signed_eq ts hne]
    exact congrArg some (foldr_max_zero (fun t => if is_signed t then t.size else 0) ts
      (fun t ht => by simp [h t ht]))
  · intro h
    rw [largest_unsigned, max_map_eq (fun t => if is_unsigned t then t.size else 0) ts hne]
    exact congrArg some (foldr_max_zero (fun t => if is_unsigned t then t.size else 0) ts
      (fun t ht => by simp [h t ht]))
  · intro h
    rw [largest_float, max_map_eq (fun t => if is_floating_point t then t.size else 0) ts hne]
    exact congrArg some (foldr_max_zero (fun t => if is_floating_point t then t.size else 0) ts
      (fun t ht => by simp [h t ht]))
  · intro t ht
    subst ht
    refine ⟨?_, ?_, ?_⟩
    · rw [largest_signed, List.map_singleton, max_singleton]
    · rw [largest_unsigned, List.map_singleton, max_singleton]
    · rw [largest_float, List.map_singleton, max_singleton]

/-- Witness for claim C5 (amended) at the singleton list of uint16_t:
largest_unsigned is 2 and largest_signed is 0. -/
theorem largest_aggregates_amended_witness :
    (largest_unsigned [uint16_t] = some (if is_unsigned uint16_t then uint16_t.size else 0) ∧
      largest_signed [uint16_t] = some (if is_signed uint16_t then uint16_t.size else 0)) ∧
    largest_unsigned [uint16_t] = some 2 ∧ largest_signed [uint16_t] = some 0 :=
  ⟨⟨((largest_aggregates_amended [uint16_t] (by decide)).2.2.2.2.2.2 uint16_t rfl).2.1,
    ((largest_aggregates_amended [uint16_t] (by decide)).2.2.2.2.2.2 uint16_t rfl).1⟩,
   by decide, by decide⟩

/-- Claim C6: for integer-category operands, clamp derives the unifying
type C, casts all three operands into C, and returns the cast of low
whenever the cast of val is not strictly greater than the cast of low
(including when low > high is supplied); otherwise it returns the cast of
val when it is strictly below the cast of high, and the cast of high
otherwise. -/
theorem clamp_branch_structure (p : Platform) (low val high : TypedVal) (c : ArithTy)
    (h1 : ¬ is_floating_point low.ty) (h2 : ¬ is_floating_point val.ty)
    (h3 : ¬ is_floating_point high.ty)
    (hc : minmax_type p [low.ty, val.ty, high.ty] = some c) :
    clamp p low val high =
      some ⟨c, clamp_fold (int_cast c low.val) (int_cast c val.val) (int_cast c high.val)⟩ ∧
    (¬ int_cast c low.val < int_cast c val.val →
      clamp p low val high = some ⟨c, int_cast c low.val⟩) ∧
    (int_cast c low.val < int_cast c val.val → int_cast c val.val < int_cast c high.val →
      clamp p low val high = some ⟨c, int_cast c val.val⟩) ∧
    (int_cast c low.val < int_cast c val.val → ¬ int_cast c val.val < int_cast c high.val →
      clamp p low val high = some ⟨c, int_cast c high.val⟩) := by
  have hmain : clamp p low val high =
      some ⟨c, clamp_fold (int_cast c low.val) (int_cast c val.val) (int_cast c high.val)⟩ := by
    unfold clamp
    rw [if_neg (by tauto), hc]
    rfl
  refine ⟨hmain, ?_, ?_, ?_⟩
  · intro hlv
    rw [hmain]
    unfold clamp_fold
    rw [if_neg hlv]
  · intro hlv hvh
    rw [hmain]
    unfold clamp_fold
    rw [if_pos hlv, if_pos hvh]
  · intro hlv hvh
    rw [hmain]
    unfold clamp_fold
    rw [if_pos hlv, if_neg hvh]

/-- Witness for claim C6 at low = 20 of type uint8_t, val = 5 of type
int8_t, high = 10 of type uint8_t (a low > high input): the unifying type
is the 4-byte signed int and clamp returns the cast of low. -/
theorem clamp_branch_structure_witness :
    clamp ⟨false, false, false⟩ ⟨uint8_t, 20⟩ ⟨int8_t, 5⟩ ⟨uint8_t, 10⟩ =
      some ⟨⟨.signedInt, 4⟩, int_cast ⟨.signedInt, 4⟩ 20⟩ ∧
    int_cast ⟨.signedInt, 4⟩ 20 = 20 :=
  ⟨(clamp_branch_structure ⟨false, false, false⟩ ⟨uint8_t, 20⟩ ⟨int8_t, 5⟩ ⟨uint8_t, 10⟩
      ⟨.signedInt, 4⟩ (by decide) (by decide) (by decide) (by decide)).2.1 (by decide),
   by decide⟩

/-- Claim C7: next_up depends only on the decayed type; whenever it yields
a type, that type has the same category and exactly twice the byte size of
the decayed input; applying it twice (when each step is supported) yields
the same category at four times the size; and next_up maps int8_t to
int16_t and int16_t to int32_t. -/
theorem next_up_doubles_size_same_category (p : Platform) (q : QualTy) :
    (∀ r, next_up p q = some r → r.cat = (decay q).cat ∧ r.size = 2 * (decay q).size) ∧
    (∀ r1 r2, next_up p q = some r1 → next_up p ⟨false, false, r1⟩ = some r2 →
      r2.cat = (decay q).cat ∧ r2.size = 4 * (decay q).size) ∧
    (∀ c r : Bool, next_up p ⟨c, r, decay q⟩ = next_up p q) ∧
    next_up p ⟨false, false, int8_t⟩ = some int16_t ∧
    next_up p ⟨true, true, int16_t⟩ = some int32_t := by
  have key : ∀ b : ArithTy, ∀ r, next_up p ⟨false, false, b⟩ = some r →
      r.cat = b.cat ∧ r.size = 2 * b.size := by
    intro b r h
    rcases b with ⟨cb, sb⟩
    cases cb
    · simp only [next_up, decay, is_floating_point, is_signed] at h
      simp at h
      rw [signed_by_size_some h]
      exact ⟨rfl, rfl⟩
    · simp only [next_up, decay, is_floating_point, is_signed] at h
      simp at h
      rw [unsigned_by_size_some h]
      exact ⟨rfl, rfl⟩
    · simp only [next_up, decay, is_floating_point, is_signed] at h
      simp at h
      rw [float_by_size_some h]
      exact ⟨rfl, rfl⟩
  refine ⟨?_, ?_, ?_, ?_, ?_⟩
  · intro r h
    exact key q.base r h
  · intro r1 r2 hr1 hr2
    obtain ⟨hc1, hs1⟩ := key q.base r1 hr1
    obtain ⟨hc2, hs2⟩ := key r1 r2 hr2
    refine ⟨hc2.trans hc1, ?_⟩
    rw [hs2, hs1]
    simp only [decay]
    omega
  · intro c r
    rfl
  · rcases p with ⟨a, b, c⟩
    cases a <;> cases b <;> cases c <;> decide
  · rcases p with ⟨a, b, c⟩
    cases a <;> cases b <;> cases c <;> decide

/-- Witness for claim C7 at int8_t: next_up yields int16_t, of the same
category and twice the size. -/
theorem next_up_doubles_size_same_category_witness :
    next_up ⟨false, false, false⟩ ⟨false, false, int8_t⟩ = some int16_t ∧
    (int16_t.cat = (decay ⟨false, false, int8_t⟩).cat ∧
      int16_t.size = 2 * (decay ⟨false, false, int8_t⟩).size) :=
  ⟨by decide,
   (next_up_doubles_size_same_category ⟨false, false, false⟩ ⟨false, false, int8_t⟩).1
      int16_t (by decide)⟩

/-- Claim C8: at every width with no table entry for the requested
category, the lookup resolves to the no-type marker none (void) rather
than to a type of a nearby size — whenever a lookup does yield a type,
that type has exactly the requested width and category — and the marker is
itself a queryable result, not a failure. -/
theorem by_size_unsupported_width_policy (p : Platform) (w : Nat) :
    (¬ signed_widths p w → signed_by_size p w = none) ∧
    (¬ unsigned_widths p w → unsigned_by_size p w = none) ∧
    (¬ float_widths p w → float_by_size p w = none) ∧
    (∀ r, signed_by_size p w = some r → r = ⟨.signedInt, w⟩) ∧
    (∀ r, unsigned_by_size p w = some r → r = ⟨.unsignedInt, w⟩) ∧
    (∀ r, float_by_size p w = some r → r = ⟨.floatingPoint, w⟩) :=
  ⟨fun h => signed_by_size_none h, fun h => unsigned_by_size_none h,
   fun h => float_by_size_none h, fun _ h => signed_by_size_some h,
   fun _ h => unsigned_by_size_some h, fun _ h => float_by_size_some h⟩

/-- Witness for claim C8 at the unsupported width 3: all three lookups
yield the no-type marker. -/
theorem by_size_unsupported_width_policy_witness :
    (¬ signed_widths ⟨false, false, false⟩ 3 ∧ ¬ float_widths ⟨false, false, false⟩ 3) ∧
    signed_by_size ⟨false, false, false⟩ 3 = none ∧
    float_by_size ⟨false, false, false⟩ 3 = none :=
  ⟨⟨by decide, by decide⟩,
   (by_size_unsupported_width_policy ⟨false, false, false⟩ 3).1 (by decide),
   (by_size_unsupported_width_policy ⟨false, false, false⟩ 3).2.2.1 (by decide)⟩

end arithmetic_type_tools
